import Mathlib

/-!
# Tic-Tac-Toe session: a shallow embedding of `src/app.js`

The script keeps one set of global variables and mutates them from event
handlers.  The embedding below makes that state one record, `State`, and
turns every handler into a function on it.  `Date.now()` is an explicit
argument, the two IndexedDB object stores that the script uses are fields of
the record, and the messages handed to `conn.send` are collected in a log.

JavaScript values that reach the board are strings, `null` or `undefined`,
so cells are of type `JSVal`.  Reading an array past its end gives
`undefined`, writing past its end pads the array.
-/

namespace TTT

/-! ## JavaScript values and arrays -/

/-- The JavaScript values that occur in the session state. -/
inductive JSVal where
  | undefined : JSVal
  | null : JSVal
  | str (s : String) : JSVal
  deriving DecidableEq, Repr

/-- Truthiness, as tested by `if (v)`, `v && ...` and `v || ...`. -/
def JSVal.truthy : JSVal → Bool
  | .str s => decide (s ≠ "")
  | _ => false

/-- The expression `v || d` for a string default `d`. -/
def JSVal.orElse (v : JSVal) (d : String) : String :=
  match v with
  | .str s => if s ≠ "" then s else d
  | _ => d

/-- The empty cell `""`. -/
def emptyCell : JSVal := JSVal.str ""

/-- Array read `a[i]`. -/
def idx (a : List JSVal) (i : Nat) : JSVal := a.getD i JSVal.undefined

/-- Array write `a[i] = v`; an index past the end pads the array. -/
def arrSet (a : List JSVal) (i : Nat) (v : JSVal) : List JSVal :=
  if i < a.length then a.set i v
  else a ++ List.replicate (i - a.length) JSVal.undefined ++ [v]

/-! ## The session state -/

/-- The values taken by `gameMode`: `null`, `'online'`, `'offline'`. -/
inductive GameMode where
  | none : GameMode
  | online : GameMode
  | offline : GameMode
  deriving DecidableEq, Repr

/-- One `.box` button: `innerHTML` is `none` for `""` and `some v` for the
span that displays `v`. -/
structure Box where
  innerHTML : Option JSVal
  disabled : Bool
  deriving DecidableEq, Repr

/-- The wire messages, by their `type` field. -/
inductive Msg where
  | join (playerName : JSVal) : Msg
  | sync (board : List JSVal) (hostName : JSVal) : Msg
  | move (index : Nat) (symbol : JSVal) : Msg
  | reset : Msg
  | other : Msg
  deriving DecidableEq, Repr

/-- A PeerJS data connection, as far as the script looks at it. -/
structure Conn where
  isOpen : Bool
  deriving DecidableEq, Repr

/-- A PeerJS peer: the id it was asked to register, if any. -/
structure Peer where
  id : Option String
  deriving DecidableEq, Repr

/-- A record of the `rooms` object store (key path `code`). -/
structure RoomRecord where
  code : String
  peerId : String
  hostName : String
  isActive : Bool
  created : Int
  lastActive : Int
  deriving DecidableEq, Repr

/-- The second argument of `saveRoomToDB`. -/
structure RoomData where
  peerId : String
  hostName : String
  created : Option Int
  deriving DecidableEq, Repr

/-- The record of the `gameState` object store kept under the key
`'current'`. -/
structure Snapshot where
  board : List JSVal
  turn0 : Bool
  gameActive : Bool
  gameMode : GameMode
  roomCode : Option String
  playerSymbol : JSVal
  isMyTurn : Bool
  isHost : Bool
  player1Name : String
  player2Name : String
  myName : String
  opponentName : String
  timestamp : Int
  deriving DecidableEq, Repr

/-- What `msg.innerHTML` announces. -/
inductive Announcement where
  | blank : Announcement
  | youWon (symbol : JSVal) (winnerName : String) : Announcement
  | youLost (symbol : JSVal) (winnerName : String) : Announcement
  | winner (symbol : JSVal) (winnerName : String) : Announcement
  | draw : Announcement
  deriving DecidableEq, Repr

/-- The global variables of the script, the parts of the page it reads back,
the two object stores and the log of sent messages. -/
structure State where
  gameMode : GameMode
  board : List JSVal
  turn0 : Bool
  gameActive : Bool
  peer : Option Peer
  conn : Option Conn
  roomCode : Option String
  playerSymbol : JSVal
  isMyTurn : Bool
  isHost : Bool
  reconnectAttempts : Nat
  maxReconnectAttempts : Nat
  player1Name : String
  player2Name : String
  myName : String
  opponentName : String
  boxes : List Box
  msg : Announcement
  msgHidden : Bool
  status : String
  rooms : List RoomRecord
  gameState : Option Snapshot
  sent : List Msg
  deriving DecidableEq, Repr

/-- The board literal `["", "", "", "", "", "", "", "", ""]`. -/
def emptyBoard : List JSVal := List.replicate 9 emptyCell

/-- The state right after the script has loaded, for a page with the given
boxes and stores. -/
def initialState (boxes : List Box) (rooms : List RoomRecord)
    (gameState : Option Snapshot) : State :=
  { gameMode := GameMode.none
    board := emptyBoard
    turn0 := true
    gameActive := true
    peer := none
    conn := none
    roomCode := none
    playerSymbol := JSVal.null
    isMyTurn := false
    isHost := false
    reconnectAttempts := 0
    maxReconnectAttempts := 3
    player1Name := "Player 1"
    player2Name := "Player 2"
    myName := ""
    opponentName := ""
    boxes := boxes
    msg := Announcement.blank
    msgHidden := true
    status := ""
    rooms := rooms
    gameState := gameState
    sent := [] }

/-- The symbol of the host and of player 1. -/
def symbolA : String := "🥰"

/-- The symbol of the guest and of player 2. -/
def symbolB : String := "😊"

/-- The result of running a handler: it ran to its end, or an exception
left the globals as they were at the throw. -/
inductive Outcome where
  | done (s : State) : Outcome
  | threw (s : State) : Outcome
  deriving DecidableEq, Repr

/-- The globals after a handler, however it ended. -/
def Outcome.state : Outcome → State
  | .done s => s
  | .threw s => s

/-! ## Win detection -/

/-- The table `winPatterns`. -/
def winPatterns : List (Nat × Nat × Nat) :=
  [(0, 1, 2), (0, 3, 6), (0, 4, 8),
   (1, 4, 7), (2, 5, 8), (2, 4, 6),
   (3, 4, 5), (6, 7, 8)]

/-- The test `pos1 && pos1 === pos2 && pos2 === pos3` on one pattern. -/
def lineFull (board : List JSVal) (p : Nat × Nat × Nat) : Bool :=
  (idx board p.1).truthy && decide (idx board p.1 = idx board p.2.1)
    && decide (idx board p.2.1 = idx board p.2.2)

/-- The loop `for (let pattern of winPatterns)`: the `pos1` of the first
pattern that passes the test. -/
def firstLine (board : List JSVal) : List (Nat × Nat × Nat) → Option JSVal
  | [] => none
  | p :: ps => if lineFull board p then some (idx board p.1) else firstLine board ps

/-- The branch that `checkWinner` takes. -/
inductive Verdict where
  | win (pos1 : JSVal) : Verdict
  | draw : Verdict
  | ongoing : Verdict
  deriving DecidableEq, Repr

/-- Which branch `checkWinner` takes on a board. -/
def verdict (board : List JSVal) : Verdict :=
  match firstLine board winPatterns with
  | some pos1 => Verdict.win pos1
  | none => if board.all (fun cell => decide (cell ≠ emptyCell)) then Verdict.draw
            else Verdict.ongoing

/-- The statement `boxes.forEach(box => box.disabled = true)`. -/
def disableAll (boxes : List Box) : List Box :=
  boxes.map (fun box => { box with disabled := true })

/-- The announcement written by the win branch. -/
def winAnnouncement (s : State) (pos1 : JSVal) : Announcement :=
  if s.gameMode = GameMode.online then
    if pos1 = s.playerSymbol then Announcement.youWon pos1 s.myName
    else Announcement.youLost pos1 s.opponentName
  else
    Announcement.winner pos1
      (if pos1 = JSVal.str symbolA then s.player1Name else s.player2Name)

/-- The function `checkWinner`.  The confetti it starts on a win is drawn on
the page only and leaves no trace in the state. -/
def checkWinner (s : State) : State :=
  match verdict s.board with
  | Verdict.win pos1 =>
      { s with msg := winAnnouncement s pos1
               msgHidden := false
               gameActive := false
               boxes := disableAll s.boxes }
  | Verdict.draw =>
      { s with msg := Announcement.draw
               msgHidden := false
               gameActive := false
               boxes := disableAll s.boxes }
  | Verdict.ongoing => s

/-! ### The lines of the board, from the rules of the game -/

/-- The three rows of the row-major 3x3 board. -/
def boardRows : List (Nat × Nat × Nat) :=
  (List.range 3).map (fun r => (3 * r, 3 * r + 1, 3 * r + 2))

/-- The three columns of the row-major 3x3 board. -/
def boardColumns : List (Nat × Nat × Nat) :=
  (List.range 3).map (fun c => (c, c + 3, c + 6))

/-- The two diagonals of the 3x3 board. -/
def boardDiagonals : List (Nat × Nat × Nat) := [(0, 4, 8), (2, 4, 6)]

/-- All rows, columns and diagonals. -/
def boardLines : List (Nat × Nat × Nat) :=
  boardRows ++ boardColumns ++ boardDiagonals

/-- Some row, column or diagonal holds three equal non-empty symbols. -/
def hasLine (board : List JSVal) : Prop :=
  ∃ p ∈ boardLines, (idx board p.1).truthy = true
    ∧ idx board p.1 = idx board p.2.1 ∧ idx board p.2.1 = idx board p.2.2

/-! ## The object stores -/

/-- The room lifetime `24 * 60 * 60 * 1000`, in milliseconds. -/
def roomLifetime : Int := 24 * 60 * 60 * 1000

/-- The snapshot lifetime `2 * 60 * 60 * 1000`, in milliseconds. -/
def snapshotLifetime : Int := 2 * 60 * 60 * 1000

/-- The call `store.put(record)` on `rooms`: the record takes the place of
the one stored under the same code, if any. -/
def roomsPut (r : RoomRecord) : List RoomRecord → List RoomRecord
  | [] => [r]
  | x :: xs => if x.code = r.code then r :: xs else x :: roomsPut r xs

/-- The call `store.get(code)` on `rooms`. -/
def roomsGet (code : String) : List RoomRecord → Option RoomRecord
  | [] => none
  | x :: xs => if x.code = code then some x else roomsGet code xs

/-- The expression `data.created || Date.now()`. -/
def createdOrNow (created : Option Int) (now : Int) : Int :=
  match created with
  | some c => if c ≠ 0 then c else now
  | none => now

/-- The function `saveRoomToDB(code, data)`, called when the clock shows
`now`. -/
def saveRoomToDB (now : Int) (code : String) (data : RoomData) (s : State) : State :=
  let record : RoomRecord :=
    { code := code
      peerId := data.peerId
      hostName := data.hostName
      isActive := true
      created := createdOrNow data.created now
      lastActive := now }
  { s with rooms := roomsPut record s.rooms }

/-- The function `getRoomFromDB(code)`, called when the clock shows `now`;
`none` is `null`. -/
def getRoomFromDB (now : Int) (code : String) (s : State) : Option RoomRecord :=
  match roomsGet code s.rooms with
  | some room => if now - room.created < roomLifetime then some room else none
  | none => none

/-- The record that `saveGameState` puts into the store. -/
def snapshotOf (now : Int) (s : State) : Snapshot :=
  { board := s.board
    turn0 := s.turn0
    gameActive := s.gameActive
    gameMode := s.gameMode
    roomCode := s.roomCode
    playerSymbol := s.playerSymbol
    isMyTurn := s.isMyTurn
    isHost := s.isHost
    player1Name := s.player1Name
    player2Name := s.player2Name
    myName := s.myName
    opponentName := s.opponentName
    timestamp := now }

/-- The function `saveGameState()`, called when the clock shows `now`. -/
def saveGameState (now : Int) (s : State) : State :=
  { s with gameState := some (snapshotOf now s) }

/-- The function `loadGameState()`, called when the clock shows `now`;
`none` is `null`. -/
def loadGameState (now : Int) (s : State) : Option Snapshot :=
  match s.gameState with
  | some state => if now - state.timestamp < snapshotLifetime then some state else none
  | none => none

/-- The function `clearGameState()`. -/
def clearGameState (s : State) : State :=
  { s with gameState := none }

/-! ## Status line and channel -/

/-- The function `updateStatus(text)`. -/
def updateStatus (text : String) (s : State) : State :=
  { s with status := text }

/-- The function `sendData(data)`: the message goes out only on an open
connection. -/
def sendData (data : Msg) (s : State) : State :=
  match s.conn with
  | some c => if c.isOpen then { s with sent := s.sent ++ [data] } else s
  | none => s

/-- The two statements `boxes[i].innerHTML = span(v); boxes[i].disabled = true`;
`none` when there is no such box, where the script throws. -/
def markBox (boxes : List Box) (i : Nat) (v : JSVal) : Option (List Box) :=
  if i < boxes.length then some (boxes.set i { innerHTML := some v, disabled := true })
  else none

/-! ## Moves and reset -/

/-- The function `makeMove(index)`, called when the clock shows `now`. -/
def makeMove (now : Int) (index : Nat) (s : State) : Outcome :=
  if s.gameMode = GameMode.online then
    if !s.isMyTurn || !s.gameActive || decide (idx s.board index ≠ emptyCell) then
      Outcome.done s
    else
      let s1 := { s with board := arrSet s.board index s.playerSymbol }
      match markBox s1.boxes index s1.playerSymbol with
      | none => Outcome.threw s1
      | some bs =>
        let s2 := { s1 with boxes := bs, isMyTurn := false }
        let s3 := sendData (Msg.move index s2.playerSymbol) s2
        let s4 := checkWinner s3
        let s5 := if s4.gameActive then
            updateStatus ("⏳ " ++ s4.opponentName ++ "'s turn...") s4
          else s4
        Outcome.done (saveGameState now s5)
  else
    let symbol := JSVal.str (if s.turn0 then symbolA else symbolB)
    match markBox s.boxes index symbol with
    | none => Outcome.threw s
    | some bs =>
      let s1 := { s with boxes := bs, board := arrSet s.board index symbol,
                         turn0 := !s.turn0 }
      let s2 := updateStatus
        (if s1.turn0 then s1.player1Name ++ " (🥰) turn"
         else s1.player2Name ++ " (😊) turn") s1
      Outcome.done (checkWinner s2)

/-- The function `resetGame()`. -/
def resetGame (s : State) : State :=
  let s1 := { s with turn0 := true
                     gameActive := true
                     board := emptyBoard
                     boxes := s.boxes.map (fun _ => { innerHTML := none, disabled := false })
                     msgHidden := true }
  if s1.gameMode = GameMode.online then
    let s2 := sendData Msg.reset s1
    let s3 := { s2 with isMyTurn := s2.isHost }
    updateStatus (if s3.isHost then "Your turn!" else "Waiting...") s3
  else if s1.gameMode = GameMode.offline then
    updateStatus (s1.player1Name ++ " (🥰) turn") s1
  else s1

/-- The click listener of box `index`. -/
def boxClick (now : Int) (index : Nat) (s : State) : Outcome :=
  match s.boxes[index]? with
  | some box =>
    if box.innerHTML = none && s.gameActive then makeMove now index s
    else Outcome.done s
  | none => Outcome.done s

/-! ## The connection handlers -/

/-- The loop of the `sync` branch: every box is drawn from the board. -/
def redrawBoxes (board : List JSVal) (boxes : List Box) : List Box :=
  (List.range boxes.length).map (fun index =>
    if (idx board index).truthy then
      { innerHTML := some (idx board index), disabled := true }
    else
      { innerHTML := none, disabled := false })

/-- The `data` handler installed by `setupConnection`, called when the
clock shows `now`. -/
def setupConnection_onData (now : Int) (data : Msg) (s : State) : Outcome :=
  match data with
  | Msg.join playerName =>
    let s1 := { s with opponentName := playerName.orElse "Opponent" }
    let s2 := updateStatus ("✅ " ++ s1.opponentName ++ " joined! Your turn!") s1
    Outcome.done (saveGameState now s2)
  | Msg.sync board hostName =>
    let s1 := { s with board := board, opponentName := hostName.orElse "Opponent" }
    let s2 := { s1 with boxes := redrawBoxes s1.board s1.boxes }
    Outcome.done (saveGameState now s2)
  | Msg.move index symbol =>
    let s1 := { s with board := arrSet s.board index symbol }
    match markBox s1.boxes index symbol with
    | none => Outcome.threw s1
    | some bs =>
      let s2 := { s1 with boxes := bs, isMyTurn := true }
      let s3 := checkWinner s2
      let s4 := if s3.gameActive then updateStatus "✅ Your turn!" s3 else s3
      Outcome.done (saveGameState now s4)
  | Msg.reset =>
    let s1 := resetGame s
    let s2 := { s1 with isMyTurn := s1.isHost }
    let s3 := updateStatus (if s2.isHost then "Your turn!" else "Waiting...") s2
    Outcome.done (saveGameState now s3)
  | Msg.other => Outcome.done s

/-- The `close` handler installed by `setupConnection`. -/
def setupConnection_onClose (s : State) : State :=
  let s1 := updateStatus "❌ Opponent disconnected" s
  { s1 with gameActive := false, boxes := disableAll s1.boxes }

/-! ## Leaving and creating a session -/

/-- The function `backToModes()`.  The connection and the peer are closed
and dropped; the panels it hides and shows are not part of the state. -/
def backToModes (s : State) : State :=
  let s1 := { s with conn := none, peer := none }
  let s2 := clearGameState s1
  let s3 := resetGame s2
  { s3 with gameMode := GameMode.none
            isHost := false
            player1Name := "Player 1"
            player2Name := "Player 2"
            myName := ""
            opponentName := ""
            roomCode := none }

/-- The text of `roomCode` inside `'ttt-' + roomCode`. -/
def roomCodeText : Option String → String
  | some c => c
  | none => "null"

/-- The function `startCreateRoom()` up to `new Peer(...)`; `code` is the
value returned by `generateRoomCode()`. -/
def startCreateRoom (code : String) (s : State) : State :=
  let s1 := { s with gameMode := GameMode.online
                     isHost := true
                     playerSymbol := JSVal.str symbolA
                     isMyTurn := true
                     roomCode := some code }
  let s2 := updateStatus "🔄 Creating room..." s1
  { s2 with peer := some { id := some ("ttt-" ++ roomCodeText s2.roomCode) } }

/-- The call `await saveRoomToDB(roomCode, {peerId: id, hostName: myName,
created: Date.now()})` made by both `open` handlers of a host.  A `null`
room code is no valid key: the put is rejected, nothing is stored and the
awaiting handler stops, which is `none`. -/
def registerRoom (now : Int) (id : String) (s : State) : Option State :=
  match s.roomCode with
  | some code =>
    some (saveRoomToDB now code { peerId := id, hostName := s.myName, created := some now } s)
  | none => none

/-- The peer `open` handler of `startCreateRoom`, for the peer id `id`. -/
def startCreateRoom_onOpen (now : Int) (id : String) (s : State) : State :=
  match registerRoom now id s with
  | none => s
  | some s1 =>
    let s2 := saveGameState now s1
    let s3 := updateStatus "⏳ Waiting for opponent..." s2
    resetGame s3

/-- The function `attemptReconnectAsHost()` up to `new Peer(...)`. -/
def attemptReconnectAsHost (s : State) : State :=
  let s1 := updateStatus "🔄 Reconnecting to your room..." s
  let s2 := { s1 with gameMode := GameMode.online }
  { s2 with peer := some { id := some ("ttt-" ++ roomCodeText s2.roomCode) } }

/-- The loop that restores the boxes after a reload: a box whose cell is
truthy is drawn and disabled, the others are left alone. -/
def restoreBoxes (board : List JSVal) (boxes : List Box) : List Box :=
  (List.range boxes.length).map (fun index =>
    if (idx board index).truthy then
      { innerHTML := some (idx board index), disabled := true }
    else boxes.getD index { innerHTML := none, disabled := false })

/-- The peer `open` handler of `attemptReconnectAsHost`, for the peer id
`id`. -/
def attemptReconnectAsHost_onOpen (now : Int) (id : String) (s : State) : State :=
  match registerRoom now id s with
  | none => s
  | some s1 =>
    let s2 := { s1 with boxes := restoreBoxes s1.board s1.boxes }
    updateStatus
      (if s2.opponentName ≠ "" then "⏳ Waiting for " ++ s2.opponentName ++ " to reconnect..."
       else "⏳ Waiting for opponent...") s2

/-- The peer `connection` handler of `startCreateRoom`: the incoming
connection becomes `conn`, and the board is sent to the guest. -/
def startCreateRoom_onConnection (connection : Conn) (s : State) : State :=
  let s1 := { s with conn := some connection }
  let s2 := updateStatus "✅ Opponent connected! Your turn!" s1
  sendData (Msg.sync s2.board (JSVal.str s2.myName)) s2

/-- The function `startJoinRoom()` up to `new Peer()`.  The result of
`await getRoomFromDB(roomCode)` is not used; with a `null` room code, which
is no valid key, the lookup is rejected and the function stops before
`new Peer()`. -/
def startJoinRoom (s : State) : State :=
  let s1 := { s with gameMode := GameMode.online
                     isHost := false
                     playerSymbol := JSVal.str symbolB
                     isMyTurn := false }
  let s2 := updateStatus "🔄 Connecting to room..." s1
  match s2.roomCode with
  | none => s2
  | some _ => { s2 with peer := some { id := none } }

/-- The function `joinOnlineRoom()`; `inputCode` is the text of the code
field, in upper case and trimmed. -/
def joinOnlineRoom (inputCode : String) (s : State) : State :=
  if inputCode = "" ∨ inputCode.length ≠ 5 then s
  else { s with roomCode := some inputCode }

/-- The function `submitOnlineName()`; `nameInput` is the trimmed text of
the name field and `code` the value that `generateRoomCode()` would return. -/
def submitOnlineName (nameInput : String) (code : String) (s : State) : State :=
  let s1 := { s with myName := if nameInput ≠ "" then nameInput else "Player" }
  match s1.roomCode with
  | some c => if c ≠ "" then startJoinRoom s1 else startCreateRoom code s1
  | none => startCreateRoom code s1

/-! ## Reconnecting as host: the error path -/

/-- The `type` of a PeerJS error, as far as the handlers tell them apart. -/
inductive PeerErrorType where
  | unavailableId : PeerErrorType
  | otherError : PeerErrorType
  deriving DecidableEq, Repr

/-- The callbacks that the error handler of `attemptReconnectAsHost` hands
to `setTimeout`: the retry (after 2000 ms) and the way back to the mode
selection (after 3000 ms). -/
inductive Timer where
  | retryAsHost : Timer
  | leave : Timer
  deriving DecidableEq, Repr

/-- The peer `error` handler of `attemptReconnectAsHost`: the new status
and the callback it schedules. -/
def attemptReconnectAsHost_onError (err : PeerErrorType) (s : State) : State × Timer :=
  match err with
  | PeerErrorType.unavailableId =>
    (updateStatus "❌ Room ID already in use. Creating new room..." s, Timer.retryAsHost)
  | PeerErrorType.otherError =>
    (updateStatus "❌ Reconnection failed" s, Timer.leave)

/-- A scheduled callback fires; `code` is the value that
`generateRoomCode()` returns inside the retry. -/
def fireTimer (code : String) (timer : Timer) (s : State) : State :=
  match timer with
  | Timer.retryAsHost => attemptReconnectAsHost { s with roomCode := some code }
  | Timer.leave => backToModes s

/-- A run of consecutive `unavailable-id` errors while reconnecting as host:
each error is handled and the callback it scheduled fires, drawing the next
code of the list. -/
def failedReconnects : List String → State → State
  | [], s => s
  | code :: codes, s =>
    let r := attemptReconnectAsHost_onError PeerErrorType.unavailableId s
    failedReconnects codes (fireTimer code r.2 r.1)

/-! ## Steps of a session -/

/-- The steps that write single cells or take a board from the peer: the
local `makeMove` and the handlers of incoming `join`, `sync` and `move`
messages. -/
inductive Step where
  | localMove (index : Nat) : Step
  | join (playerName : JSVal) : Step
  | sync (board : List JSVal) (hostName : JSVal) : Step
  | move (index : Nat) (symbol : JSVal) : Step
  deriving DecidableEq, Repr

/-- One step is taken, at time `now`. -/
def applyStep (now : Int) (step : Step) (s : State) : Outcome :=
  match step with
  | Step.localMove index => makeMove now index s
  | Step.join playerName => setupConnection_onData now (Msg.join playerName) s
  | Step.sync board hostName => setupConnection_onData now (Msg.sync board hostName) s
  | Step.move index symbol => setupConnection_onData now (Msg.move index symbol) s

/-- What the user can do on the game page without leaving the session. -/
inductive UserAction where
  | click (index : Nat) : UserAction
  | resetButton : UserAction
  | newGameButton : UserAction
  deriving DecidableEq, Repr

/-- The click listener of the new-game button. -/
def newGameClick (s : State) : State :=
  resetGame { s with msgHidden := true }

/-- The listener of one user action runs, at time `now`. -/
def userAction (now : Int) (a : UserAction) (s : State) : State :=
  match a with
  | UserAction.click index => (boxClick now index s).state
  | UserAction.resetButton => resetGame s
  | UserAction.newGameButton => newGameClick s

/-- A sequence of user actions, first to last. -/
def userActions (now : Int) : List UserAction → State → State
  | [], s => s
  | a :: rest, s => userActions now rest (userAction now a s)

/-- Some pattern of `winPatterns` holds `symbol` three times. -/
def lineOf (board : List JSVal) (symbol : JSVal) : Prop :=
  ∃ p ∈ winPatterns, idx board p.1 = symbol ∧ idx board p.2.1 = symbol
    ∧ idx board p.2.2 = symbol

/-- Patterns that are full all hold the same symbol. -/
def oneSided (board : List JSVal) : Prop :=
  ∀ p ∈ winPatterns, ∀ q ∈ winPatterns, lineFull board p = true → lineFull board q = true →
    idx board p.1 = idx board q.1

/-- The facts kept by every user action of an offline game. -/
def offlineInv (s : State) : Prop :=
  s.gameMode = GameMode.offline
    ∧ (s.gameActive = true → ∀ p ∈ winPatterns, lineFull s.board p = false)
    ∧ oneSided s.board

/-! ## Two connected peers -/

/-- The peer `open` handler of `startJoinRoom` up to `peer.connect(...)`:
the connection exists and is not open yet. -/
def startJoinRoom_onPeerOpen (s : State) : State :=
  { s with conn := some { isOpen := false } }

/-- The `open` handler of the guest's connection, which is open from then
on. -/
def startJoinRoom_onConnOpen (now : Int) (s : State) : State :=
  let s1 := saveGameState now { s with conn := some { isOpen := true } }
  let s2 := updateStatus "✅ Connected! Waiting..." s1
  sendData (Msg.join (JSVal.str s2.myName)) s2

/-- The messages that a handler has handed to `conn.send`, given the state
before and after it. -/
def newlySent (before after : State) : List Msg :=
  after.sent.drop before.sent.length

/-- Two peers and the messages in flight between them, oldest first. -/
structure Link where
  host : State
  guest : State
  toGuest : List Msg
  toHost : List Msg
  deriving DecidableEq, Repr

/-- The host calls `resetGame()`; what it sends goes on the wire. -/
def Link.hostResets (l : Link) : Link :=
  let h := resetGame l.host
  { l with host := h, toGuest := l.toGuest ++ newlySent l.host h }

/-- The oldest message in flight is delivered to its `data` handler, and
what the handler sends goes on the wire; `none` when nothing is in flight. -/
def Link.deliver (now : Int) (l : Link) : Option Link :=
  match l.toGuest with
  | m :: rest =>
    let g := (setupConnection_onData now m l.guest).state
    some { l with guest := g, toGuest := rest, toHost := l.toHost ++ newlySent l.guest g }
  | [] =>
    match l.toHost with
    | m :: rest =>
      let h := (setupConnection_onData now m l.host).state
      some { l with host := h, toHost := rest, toGuest := l.toGuest ++ newlySent l.host h }
    | [] => none

/-- Up to `n` deliveries, stopping early when the wire is empty. -/
def Link.run (now : Int) : Nat → Link → Link
  | 0, l => l
  | n + 1, l =>
    match l.deliver now with
    | some l' => Link.run now n l'
    | none => l

/-- Both peers are online with an open connection, exactly one message is
in flight and it is a `reset`, and the peers have sent `k` messages between
them. -/
def resetInFlight (l : Link) (k : Nat) : Prop :=
  l.host.gameMode = GameMode.online ∧ l.host.conn = some { isOpen := true }
    ∧ l.guest.gameMode = GameMode.online ∧ l.guest.conn = some { isOpen := true }
    ∧ ((l.toGuest = [Msg.reset] ∧ l.toHost = []) ∨ (l.toGuest = [] ∧ l.toHost = [Msg.reset]))
    ∧ l.host.sent.length + l.guest.sent.length = k

/-! ## Sample sessions -/

/-- Nine blank, enabled boxes. -/
def freshBoxes : List Box := List.replicate 9 { innerHTML := none, disabled := false }

/-- The page just loaded, with nine boxes and empty stores. -/
def pageLoaded : State := initialState freshBoxes [] none

/-- A host named Ann whose room `ABCDE` was registered at time 1000. -/
def hostWaiting : State :=
  startCreateRoom_onOpen 1000 "ttt-ABCDE" (submitOnlineName "Ann" "ABCDE" pageLoaded)

/-- The host after the guest has connected and sent its `join`. -/
def hostJoined : State :=
  (setupConnection_onData 2000 (Msg.join (JSVal.str "Bob"))
    (startCreateRoom_onConnection { isOpen := true } hostWaiting)).state

/-- The host after its first move, on cell 0. -/
def hostMoved : State := (makeMove 3000 0 hostJoined).state

/-- An offline game in which player 1 has taken cell 0 and player 2 is to
move. -/
def offlineAfterFirstMove : State :=
  (boxClick 0 0 (resetGame { pageLoaded with gameMode := GameMode.offline })).state

/-- The host after its first move, when the guest has gone: the connection
is no longer open and the `close` handler has run. -/
def hostDisconnected : State :=
  setupConnection_onClose { hostMoved with conn := some { isOpen := false } }

/-- A guest named Bob whose connection to room `ABCDE` has just opened. -/
def guestConnected : State :=
  startJoinRoom_onConnOpen 2000 (startJoinRoom_onPeerOpen
    (submitOnlineName "Bob" "" (joinOnlineRoom "ABCDE" pageLoaded)))

/-- A guest named Bob who has joined room `ABCDE` and received the host's
first `sync`. -/
def guestJoined : State :=
  (setupConnection_onData 2000 (Msg.sync emptyBoard (JSVal.str "Ann")) guestConnected).state

/-- The host has taken cell 0 while it was still waiting for a guest. -/
def hostMovedAlone : State := (boxClick 1500 0 hostWaiting).state

/-- The host that moved while waiting, after the guest has connected and
its `join` has been handled. -/
def hostJoinedLate : State :=
  (setupConnection_onData 2000 (Msg.join (JSVal.str "Bob"))
    (startCreateRoom_onConnection { isOpen := true } hostMovedAlone)).state

/-- The guest of the host that moved while waiting, after the host's `sync`
has been handled. -/
def guestJoinedLate : State :=
  (setupConnection_onData 2000 (Msg.sync hostMovedAlone.board (JSVal.str "Ann"))
    guestConnected).state

/-- The host and the guest after the `join`, with nothing in flight. -/
def linkJoined : Link :=
  { host := hostJoined, guest := guestJoined, toGuest := [], toHost := [] }

/-! ## Theorems -/

theorem truthy_str (s : String) : (JSVal.str s).truthy = true ↔ s ≠ "" := by
  simp [JSVal.truthy]

theorem winPatterns_perm : winPatterns.Perm boardLines := by
  decide

theorem mem_winPatterns_iff (p : Nat × Nat × Nat) :
    p ∈ winPatterns ↔ p ∈ boardLines :=
  winPatterns_perm.mem_iff

theorem lineFull_iff (board : List JSVal) (p : Nat × Nat × Nat) :
    lineFull board p = true ↔ ((idx board p.1).truthy = true
      ∧ idx board p.1 = idx board p.2.1 ∧ idx board p.2.1 = idx board p.2.2) := by
  simp [lineFull, and_assoc]

theorem firstLine_isSome_iff (board : List JSVal) (ps : List (Nat × Nat × Nat)) :
    (∃ v, firstLine board ps = some v) ↔ ∃ p ∈ ps, lineFull board p = true := by
  induction ps with
  | nil => simp [firstLine]
  | cons p ps ih =>
    by_cases h : lineFull board p = true
    · simp [firstLine, h]
    · simp [firstLine, h, ih]

theorem firstLine_winPatterns_iff (board : List JSVal) :
    (∃ v, firstLine board winPatterns = some v) ↔ hasLine board := by
  rw [firstLine_isSome_iff]
  unfold hasLine
  constructor
  · rintro ⟨p, hp, hl⟩
    exact ⟨p, (mem_winPatterns_iff p).1 hp, (lineFull_iff board p).1 hl⟩
  · rintro ⟨p, hp, hl⟩
    exact ⟨p, (mem_winPatterns_iff p).2 hp, (lineFull_iff board p).2 hl⟩

theorem firstLine_truthy (board : List JSVal) (ps : List (Nat × Nat × Nat)) (v : JSVal)
    (h : firstLine board ps = some v) : v.truthy = true := by
  induction ps with
  | nil => simp [firstLine] at h
  | cons p ps ih =>
    by_cases hl : lineFull board p = true
    · simp only [firstLine, hl, if_true, Option.some.injEq] at h
      rw [← h]
      exact ((lineFull_iff board p).1 hl).1
    · simp only [firstLine, hl] at h
      exact ih h

theorem all_nonEmpty_iff (board : List JSVal) :
    (board.all fun cell => decide (cell ≠ emptyCell)) = true ↔ ∀ c ∈ board, c ≠ emptyCell := by
  simp

theorem verdict_win_iff (board : List JSVal) (v : JSVal) :
    verdict board = Verdict.win v ↔ firstLine board winPatterns = some v := by
  unfold verdict
  cases h : firstLine board winPatterns with
  | none =>
    show (if _ then Verdict.draw else Verdict.ongoing) = Verdict.win v ↔ _
    split_ifs <;> simp
  | some w => simp

theorem verdict_draw_iff (board : List JSVal) :
    verdict board = Verdict.draw ↔
      (firstLine board winPatterns = none ∧ ∀ c ∈ board, c ≠ emptyCell) := by
  unfold verdict
  cases h : firstLine board winPatterns with
  | none =>
    show (if _ then Verdict.draw else Verdict.ongoing) = Verdict.draw ↔ _
    split_ifs with hd
    · simpa using (all_nonEmpty_iff board).1 hd
    · have hn := fun hc => hd ((all_nonEmpty_iff board).2 hc)
      simpa using hn
  | some w => simp

theorem verdict_ongoing_iff (board : List JSVal) :
    verdict board = Verdict.ongoing ↔
      (firstLine board winPatterns = none ∧ ∃ c ∈ board, c = emptyCell) := by
  unfold verdict
  cases h : firstLine board winPatterns with
  | none =>
    show (if _ then Verdict.draw else Verdict.ongoing) = Verdict.ongoing ↔ _
    split_ifs with hd
    · have hc := (all_nonEmpty_iff board).1 hd
      simp only [false_iff, true_and, not_exists, not_and]
      exact hc
    · have hn : ¬ ∀ c ∈ board, c ≠ emptyCell := fun hc => hd ((all_nonEmpty_iff board).2 hc)
      simp only [true_iff, true_and]
      by_contra hne
      exact hn (fun c hc he => hne ⟨c, hc, he⟩)
  | some w => simp

theorem firstLine_none_iff (board : List JSVal) :
    firstLine board winPatterns = none ↔ ¬ hasLine board := by
  rw [← firstLine_winPatterns_iff]
  cases h : firstLine board winPatterns with
  | none => simp
  | some w => simp

theorem idx_arrSet_self (a : List JSVal) (i : Nat) (v : JSVal) :
    idx (arrSet a i v) i = v := by
  unfold idx arrSet
  split_ifs with h
  · simp [List.getElem?_set, h]
  · have hle : a.length ≤ i := Nat.le_of_not_lt h
    simp [List.getElem?_append_right, hle]

theorem idx_arrSet_ne (a : List JSVal) (i j : Nat) (v : JSVal) (hne : j ≠ i) :
    idx (arrSet a i v) j = idx a j := by
  unfold idx arrSet
  split_ifs with h
  · simp [List.getElem?_set_ne (Ne.symm hne)]
  · have hle : a.length ≤ i := Nat.le_of_not_lt h
    simp only [List.getD_eq_getElem?_getD, List.append_assoc]
    by_cases hj : j < a.length
    · rw [List.getElem?_append_left hj]
    · have hjl : a.length ≤ j := Nat.le_of_not_lt hj
      rw [List.getElem?_append_right hjl, List.getElem?_eq_none hjl]
      by_cases hj2 : j - a.length < i - a.length
      · rw [List.getElem?_append_left (by simpa using hj2)]
        simp [List.getElem?_replicate, hj2]
      · have : (List.replicate (i - a.length) JSVal.undefined ++ [v]).length ≤ j - a.length := by
          simp
          omega
        rw [List.getElem?_eq_none this]

theorem roomsGet_roomsPut (r : RoomRecord) (l : List RoomRecord) :
    roomsGet r.code (roomsPut r l) = some r := by
  induction l with
  | nil => simp [roomsPut, roomsGet]
  | cons x xs ih =>
    by_cases h : x.code = r.code
    · simp [roomsPut, roomsGet, h]
    · simp [roomsPut, roomsGet, h, ih]

theorem checkWinner_board (s : State) : (checkWinner s).board = s.board := by
  unfold checkWinner
  cases verdict s.board <;> rfl

theorem checkWinner_isMyTurn (s : State) : (checkWinner s).isMyTurn = s.isMyTurn := by
  unfold checkWinner
  cases verdict s.board <;> rfl

/-- C1: `checkWinner` takes its win branch exactly when some row, column or
diagonal of the board holds three equal non-empty symbols, and its draw
branch exactly when no cell is `""` and there is no such line; the win and
the draw branch set `gameActive` to false, in every other case the state is
left as it is.  The table `winPatterns` lists exactly the 3 rows, 3 columns
and 2 diagonals, each once. -/
theorem checkWinner_reports (s : State) :
    ((∃ v, verdict s.board = Verdict.win v) ↔ hasLine s.board)
    ∧ (verdict s.board = Verdict.draw ↔
        ((∀ c ∈ s.board, c ≠ emptyCell) ∧ ¬ hasLine s.board))
    ∧ (verdict s.board = Verdict.ongoing ↔
        ((∃ c ∈ s.board, c = emptyCell) ∧ ¬ hasLine s.board))
    ∧ (∀ v, verdict s.board = Verdict.win v →
        v.truthy = true ∧ (checkWinner s).gameActive = false
          ∧ (checkWinner s).msg = winAnnouncement s v
          ∧ (checkWinner s).msgHidden = false)
    ∧ (verdict s.board = Verdict.draw →
        (checkWinner s).gameActive = false ∧ (checkWinner s).msg = Announcement.draw
          ∧ (checkWinner s).msgHidden = false)
    ∧ (verdict s.board = Verdict.ongoing → checkWinner s = s)
    ∧ (∀ p, p ∈ winPatterns ↔ p ∈ boardLines)
    ∧ winPatterns.Nodup ∧ winPatterns.length = 8
    ∧ boardRows.length = 3 ∧ boardColumns.length = 3 ∧ boardDiagonals.length = 2 := by
  refine ⟨?_, ?_, ?_, ?_, ?_, ?_, mem_winPatterns_iff, by decide, rfl, rfl, rfl, rfl⟩
  · rw [← firstLine_winPatterns_iff]
    exact exists_congr (fun v => verdict_win_iff s.board v)
  · rw [verdict_draw_iff, firstLine_none_iff, and_comm]
  · rw [verdict_ongoing_iff, firstLine_none_iff, and_comm]
  · intro v hv
    refine ⟨firstLine_truthy _ _ _ ((verdict_win_iff _ _).1 hv), ?_, ?_, ?_⟩ <;>
      simp [checkWinner, hv]
  · intro hv
    simp [checkWinner, hv]
  · intro hv
    simp [checkWinner, hv]

/-- C1 at a board whose top row is full: the win branch is taken there. -/
theorem checkWinner_reports_witness :
    (checkWinner { pageLoaded with
        board := arrSet (arrSet (arrSet emptyBoard 0 (JSVal.str symbolA)) 1
          (JSVal.str symbolA)) 2 (JSVal.str symbolA) }).gameActive = false :=
  ((checkWinner_reports _).2.2.2.1 (JSVal.str symbolA) (by decide)).2.1

/-- C2, refuted as stated: in the offline game where player 1 holds cell 0,
`makeMove(0)` writes player 2's symbol over it. -/
theorem makeMove_offline_overwrites :
    offlineAfterFirstMove.gameMode = GameMode.offline
    ∧ idx offlineAfterFirstMove.board 0 = JSVal.str symbolA
    ∧ idx (makeMove 0 0 offlineAfterFirstMove).state.board 0 = JSVal.str symbolB
    ∧ ¬ (∀ (now : Int) (index : Nat) (s : State), index < 9 →
          idx s.board index ≠ emptyCell →
          idx (makeMove now index s).state.board index = idx s.board index) := by
  refine ⟨by decide, by decide, by decide, ?_⟩
  intro h
  exact absurd (h 0 0 offlineAfterFirstMove (by decide) (by decide)) (by decide)

/-- C2, amended: on a non-empty cell `makeMove` returns at its guard in
online mode and leaves the whole state as it is; outside online mode it has
no guard and writes the symbol of the side to move, and the guard is the
click listener, which does nothing on a box that already shows a symbol. -/
theorem makeMove_occupied (now : Int) (index : Nat) (s : State)
    (hcell : idx s.board index ≠ emptyCell) :
    (s.gameMode = GameMode.online → makeMove now index s = Outcome.done s)
    ∧ (∀ box, s.boxes[index]? = some box → box.innerHTML ≠ none →
        boxClick now index s = Outcome.done s)
    ∧ (s.gameMode ≠ GameMode.online → index < s.boxes.length →
        idx (makeMove now index s).state.board index
          = JSVal.str (if s.turn0 then symbolA else symbolB)) := by
  refine ⟨?_, ?_, ?_⟩
  · intro hm
    simp [makeMove, hm, hcell]
  · intro box hb hi
    simp [boxClick, hb, hi]
  · intro hm hlt
    simp [makeMove, hm, markBox, hlt, Outcome.state, checkWinner_board, updateStatus,
      idx_arrSet_self]

/-- C2 amended, at the host that has just played cell 0. -/
theorem makeMove_occupied_witness :
    idx hostMoved.board 0 ≠ emptyCell ∧ makeMove 4000 0 hostMoved = Outcome.done hostMoved :=
  ⟨by decide, (makeMove_occupied 4000 0 hostMoved (by decide)).1 (by decide)⟩

/-- C3: a room saved at time `t0` with `created: t0` is returned by
`getRoomFromDB` with the same `peerId` and `hostName` while `t - t0` is
under 24 hours, and `null` is returned from 24 hours on. -/
theorem room_round_trip (s : State) (code peerId hostName : String) (t0 t : Int) :
    (t - t0 < 24 * 60 * 60 * 1000 →
      ∃ room, getRoomFromDB t code
          (saveRoomToDB t0 code { peerId := peerId, hostName := hostName, created := some t0 } s)
            = some room
        ∧ room.peerId = peerId ∧ room.hostName = hostName ∧ room.code = code)
    ∧ (24 * 60 * 60 * 1000 ≤ t - t0 →
      getRoomFromDB t code
          (saveRoomToDB t0 code { peerId := peerId, hostName := hostName, created := some t0 } s)
            = none) := by
  have hc : createdOrNow (some t0) t0 = t0 := by
    simp [createdOrNow]
  have hget : roomsGet code (roomsPut ⟨code, peerId, hostName, true, t0, t0⟩ s.rooms)
      = some ⟨code, peerId, hostName, true, t0, t0⟩ :=
    roomsGet_roomsPut ⟨code, peerId, hostName, true, t0, t0⟩ s.rooms
  constructor
  · intro h
    refine ⟨⟨code, peerId, hostName, true, t0, t0⟩, ?_, rfl, rfl, rfl⟩
    simp only [getRoomFromDB, saveRoomToDB, hc, hget, roomLifetime]
    rw [if_pos h]
  · intro h
    simp only [getRoomFromDB, saveRoomToDB, hc, hget, roomLifetime]
    rw [if_neg (by omega)]

/-- C3 one hour after saving and exactly 24 hours after saving. -/
theorem room_round_trip_witness :
    (∃ room, getRoomFromDB 3600000 "ABCDE"
        (saveRoomToDB 0 "ABCDE" { peerId := "ttt-ABCDE", hostName := "Ann", created := some 0 }
          pageLoaded) = some room
      ∧ room.peerId = "ttt-ABCDE" ∧ room.hostName = "Ann" ∧ room.code = "ABCDE")
    ∧ getRoomFromDB 86400000 "ABCDE"
        (saveRoomToDB 0 "ABCDE" { peerId := "ttt-ABCDE", hostName := "Ann", created := some 0 }
          pageLoaded) = none :=
  ⟨(room_round_trip pageLoaded "ABCDE" "ttt-ABCDE" "Ann" 0 3600000).1 (by decide),
   (room_round_trip pageLoaded "ABCDE" "ttt-ABCDE" "Ann" 0 86400000).2 (by decide)⟩

/-- C4: the snapshot written by `saveGameState` at time `t0` is returned by
`loadGameState` with every saved field intact while `t - t0` is under 2
hours, and `null` is returned from 2 hours on. -/
theorem gameState_round_trip (s : State) (t0 t : Int) :
    (t - t0 < 2 * 60 * 60 * 1000 →
      ∃ snap, loadGameState t (saveGameState t0 s) = some snap
        ∧ snap.board = s.board ∧ snap.turn0 = s.turn0 ∧ snap.gameActive = s.gameActive
        ∧ snap.gameMode = s.gameMode ∧ snap.roomCode = s.roomCode
        ∧ snap.playerSymbol = s.playerSymbol ∧ snap.isMyTurn = s.isMyTurn
        ∧ snap.isHost = s.isHost ∧ snap.player1Name = s.player1Name
        ∧ snap.player2Name = s.player2Name ∧ snap.myName = s.myName
        ∧ snap.opponentName = s.opponentName)
    ∧ (2 * 60 * 60 * 1000 ≤ t - t0 → loadGameState t (saveGameState t0 s) = none) := by
  constructor
  · intro h
    refine ⟨snapshotOf t0 s, ?_, rfl, rfl, rfl, rfl, rfl, rfl, rfl, rfl, rfl, rfl, rfl, rfl⟩
    simp only [loadGameState, saveGameState, snapshotOf, snapshotLifetime]
    rw [if_pos h]
  · intro h
    simp only [loadGameState, saveGameState, snapshotOf, snapshotLifetime]
    rw [if_neg (by omega)]

/-- C4 for the host that has moved: half an hour later and exactly 2 hours
later. -/
theorem gameState_round_trip_witness :
    (∃ snap, loadGameState 1800000 (saveGameState 0 hostMoved) = some snap
        ∧ snap.board = hostMoved.board ∧ snap.turn0 = hostMoved.turn0
        ∧ snap.gameActive = hostMoved.gameActive
        ∧ snap.gameMode = hostMoved.gameMode ∧ snap.roomCode = hostMoved.roomCode
        ∧ snap.playerSymbol = hostMoved.playerSymbol ∧ snap.isMyTurn = hostMoved.isMyTurn
        ∧ snap.isHost = hostMoved.isHost ∧ snap.player1Name = hostMoved.player1Name
        ∧ snap.player2Name = hostMoved.player2Name ∧ snap.myName = hostMoved.myName
        ∧ snap.opponentName = hostMoved.opponentName)
    ∧ loadGameState 7200000 (saveGameState 0 hostMoved) = none :=
  ⟨(gameState_round_trip hostMoved 0 1800000).1 (by decide),
   (gameState_round_trip hostMoved 0 7200000).2 (by decide)⟩

theorem sendData_rooms (m : Msg) (s : State) : (sendData m s).rooms = s.rooms := by
  unfold sendData
  cases s.conn with
  | none => rfl
  | some c => by_cases h : c.isOpen = true <;> simp [h]

theorem resetGame_rooms (s : State) : (resetGame s).rooms = s.rooms := by
  unfold resetGame
  simp only []
  split_ifs <;> simp [updateStatus, sendData_rooms]

theorem registerRoom_some (now : Int) (id code : String) (s : State)
    (h : s.roomCode = some code) :
    registerRoom now id s
      = some (saveRoomToDB now code { peerId := id, hostName := s.myName, created := some now } s)
    ∧ roomsGet code
        (saveRoomToDB now code { peerId := id, hostName := s.myName, created := some now } s).rooms
      = some ⟨code, id, s.myName, true, now, now⟩ := by
  have hc : createdOrNow (some now) now = now := by
    simp [createdOrNow]
  refine ⟨by simp only [registerRoom, h], ?_⟩
  simp only [saveRoomToDB, hc]
  exact roomsGet_roomsPut ⟨code, id, s.myName, true, now, now⟩ s.rooms

theorem reconnect_open_record (now : Int) (id code : String) (s : State)
    (h : s.roomCode = some code) :
    roomsGet code (attemptReconnectAsHost_onOpen now id s).rooms
      = some ⟨code, id, s.myName, true, now, now⟩ := by
  obtain ⟨h1, h2⟩ := registerRoom_some now id code s h
  simp only [attemptReconnectAsHost_onOpen, h1, updateStatus]
  exact h2

theorem create_open_record (now : Int) (id code : String) (s : State)
    (h : s.roomCode = some code) :
    roomsGet code (startCreateRoom_onOpen now id s).rooms
      = some ⟨code, id, s.myName, true, now, now⟩ := by
  obtain ⟨h1, h2⟩ := registerRoom_some now id code s h
  simp only [startCreateRoom_onOpen, h1, resetGame_rooms, updateStatus, saveGameState]
  exact h2

/-- C5, on the code: the host's room `ABCDE` was created at time 1000.  The
`open` handler of `attemptReconnectAsHost` runs 23 hours later and stores a
record whose `created` is the time of the reconnection, not 1000, so that 30
hours after the room was created `getRoomFromDB` still returns it, while the
record as it stood has expired by then.  The `open` handler of
`startCreateRoom` overwrites `created` in the same way, and both do so for
every state and time: `created` always equals `lastActive`. -/
theorem reregister_resets_created :
    (Option.map RoomRecord.created (roomsGet "ABCDE" hostMoved.rooms) = some 1000
    ∧ Option.map RoomRecord.created (roomsGet "ABCDE"
        (attemptReconnectAsHost_onOpen 82800000 "ttt-ABCDE"
          (attemptReconnectAsHost hostMoved)).rooms) = some 82800000
    ∧ Option.map RoomRecord.lastActive (roomsGet "ABCDE"
        (attemptReconnectAsHost_onOpen 82800000 "ttt-ABCDE"
          (attemptReconnectAsHost hostMoved)).rooms) = some 82800000
    ∧ Option.map RoomRecord.created (getRoomFromDB 108000000 "ABCDE"
        (attemptReconnectAsHost_onOpen 82800000 "ttt-ABCDE"
          (attemptReconnectAsHost hostMoved))) = some 82800000
    ∧ getRoomFromDB 108000000 "ABCDE" hostMoved = none
    ∧ Option.map RoomRecord.created (roomsGet "ABCDE"
        (startCreateRoom_onOpen 82800000 "ttt-ABCDE"
          (startCreateRoom "ABCDE" hostMoved)).rooms) = some 82800000)
    ∧ (∀ (now : Int) (id code : String) (s : State),
        roomsGet code (attemptReconnectAsHost_onOpen now id
            { s with roomCode := some code }).rooms
          = some ⟨code, id, s.myName, true, now, now⟩
        ∧ roomsGet code (startCreateRoom_onOpen now id { s with roomCode := some code }).rooms
          = some ⟨code, id, s.myName, true, now, now⟩) := by
  refine ⟨by decide, ?_⟩
  intro now id code s
  exact ⟨reconnect_open_record now id code { s with roomCode := some code } rfl,
    create_open_record now id code { s with roomCode := some code } rfl⟩

/-- C6: an incoming `move` message for an index in 0..8 is handled to the
end; afterwards the board holds the symbol at that index, every other cell
reads as before, and `isMyTurn` is true. -/
theorem onData_move (now : Int) (index : Nat) (symbol : JSVal) (s : State)
    (hboxes : s.boxes.length = 9) (hindex : index < 9) :
    ∃ s', setupConnection_onData now (Msg.move index symbol) s = Outcome.done s'
      ∧ idx s'.board index = symbol
      ∧ (∀ j, j ≠ index → idx s'.board j = idx s.board j)
      ∧ s'.isMyTurn = true := by
  have hlt : index < s.boxes.length := by omega
  simp only [setupConnection_onData, markBox, hlt, if_true]
  refine ⟨_, rfl, ?_, ?_, ?_⟩
  · simp only [saveGameState]
    split_ifs <;> simp [updateStatus, checkWinner_board, idx_arrSet_self]
  · intro j hj
    simp only [saveGameState]
    split_ifs <;> simp [updateStatus, checkWinner_board, idx_arrSet_ne _ _ _ _ hj]
  · simp only [saveGameState]
    split_ifs <;> simp [updateStatus, checkWinner_isMyTurn]

/-- C6 at the guest's first move on cell 4, received by the host that has
played cell 0. -/
theorem onData_move_witness :
    ∃ s', setupConnection_onData 4000 (Msg.move 4 (JSVal.str symbolB)) hostMoved
        = Outcome.done s'
      ∧ idx s'.board 4 = JSVal.str symbolB
      ∧ (∀ j, j ≠ 4 → idx s'.board j = idx hostMoved.board j)
      ∧ s'.isMyTurn = true :=
  onData_move 4000 4 (JSVal.str symbolB) hostMoved (by decide) (by decide)

theorem sendData_frame (m : Msg) (s : State) :
    (sendData m s).board = s.board ∧ (sendData m s).gameActive = s.gameActive
      ∧ (sendData m s).isHost = s.isHost ∧ (sendData m s).gameMode = s.gameMode
      ∧ (sendData m s).turn0 = s.turn0 ∧ (sendData m s).isMyTurn = s.isMyTurn
      ∧ (sendData m s).playerSymbol = s.playerSymbol := by
  unfold sendData
  cases s.conn with
  | none => exact ⟨rfl, rfl, rfl, rfl, rfl, rfl, rfl⟩
  | some c => by_cases h : c.isOpen = true <;> simp [h]

theorem resetGame_frame (s : State) :
    (resetGame s).board = emptyBoard ∧ (resetGame s).gameActive = true
      ∧ (resetGame s).isHost = s.isHost ∧ (resetGame s).turn0 = true
      ∧ (resetGame s).gameMode = s.gameMode := by
  unfold resetGame
  simp only []
  split_ifs <;> simp [updateStatus, sendData_frame]

/-- C7: after an incoming `reset` message all 9 cells are empty, `gameActive`
is true and `isMyTurn` equals `isHost`, which the handler does not change:
false on the guest, true on the host. -/
theorem onData_reset (now : Int) (s : State) :
    ∃ s', setupConnection_onData now Msg.reset s = Outcome.done s'
      ∧ s'.board.length = 9 ∧ (∀ i, i < 9 → idx s'.board i = emptyCell)
      ∧ s'.gameActive = true
      ∧ s'.isMyTurn = s'.isHost ∧ s'.isHost = s.isHost
      ∧ (s.isHost = false → s'.isMyTurn = false)
      ∧ (s.isHost = true → s'.isMyTurn = true) := by
  obtain ⟨hb, hg, hh, _, _⟩ := resetGame_frame s
  refine ⟨_, rfl, ?_, ?_, ?_, ?_, ?_, ?_, ?_⟩
  · simp [saveGameState, updateStatus, hb, emptyBoard]
  · intro i hi
    simp only [saveGameState, updateStatus, hb]
    have : i ∈ [0, 1, 2, 3, 4, 5, 6, 7, 8] := by
      simp only [List.mem_cons, List.mem_singleton]
      omega
    simp only [List.mem_cons, List.mem_singleton, List.not_mem_nil, or_false] at this
    rcases this with h | h | h | h | h | h | h | h | h <;> subst h <;> rfl
  · simp [saveGameState, updateStatus, hg]
  · simp [saveGameState, updateStatus]
  · simp [saveGameState, updateStatus, hh]
  · intro h
    simp [saveGameState, updateStatus, hh, h]
  · intro h
    simp [saveGameState, updateStatus, hh, h]

/-- C7 on the host that has moved: the turn goes back to the host. -/
theorem onData_reset_witness :
    (setupConnection_onData 4000 Msg.reset hostMoved).state.isMyTurn = true := by
  obtain ⟨s', h, _, _, _, _, _, _, ht⟩ := onData_reset 4000 hostMoved
  rw [h]
  exact ht (by decide)

theorem orElse_cases (v : JSVal) (d : String) :
    (∀ n, v = JSVal.str n → n ≠ "" → v.orElse d = n)
    ∧ (v = JSVal.str "" ∨ v = JSVal.null ∨ v = JSVal.undefined → v.orElse d = d) := by
  constructor
  · intro n hv hn
    subst hv
    simp [JSVal.orElse, hn]
  · rintro (h | h | h) <;> subst h <;> simp [JSVal.orElse]

theorem makeMove_blocked (now : Int) (index : Nat) (s : State)
    (hm : s.gameMode = GameMode.online) (h : s.gameActive = false ∨ s.isMyTurn = false) :
    makeMove now index s = Outcome.done s := by
  unfold makeMove
  rw [if_pos hm, if_pos]
  rcases h with h | h <;> simp [h]

/-- C8, on the code: the `join` branch sets `opponentName` to the player
name (or to "Opponent") and announces "Your turn!", but it never assigns
`isMyTurn`, which keeps the value it had.  A host that took cell 0 while it
waited for the guest is told that it is its turn with `isMyTurn` false, and
the guest has `isMyTurn` false as well, so neither peer can move; a host
that has moved and receives the `join` of a reconnecting guest keeps
`isMyTurn` false too. -/
theorem onData_join_turn_stays_false :
    (hostMovedAlone.isHost = true ∧ hostMovedAlone.isMyTurn = false
      ∧ hostJoinedLate.opponentName = "Bob"
      ∧ hostJoinedLate.status = "✅ Bob joined! Your turn!"
      ∧ hostJoinedLate.isMyTurn = false
      ∧ hostJoinedLate.gameActive = true
      ∧ guestJoinedLate.isMyTurn = false
      ∧ guestJoinedLate.board = hostJoinedLate.board
      ∧ hostMoved.isHost = true ∧ hostMoved.isMyTurn = false
      ∧ (setupConnection_onData 4000 (Msg.join (JSVal.str "Bob")) hostMoved).state.isMyTurn
          = false)
    ∧ (∀ index, makeMove 2500 index hostJoinedLate = Outcome.done hostJoinedLate)
    ∧ (∀ index, makeMove 2500 index guestJoinedLate = Outcome.done guestJoinedLate)
    ∧ (∀ (now : Int) (playerName : JSVal) (s : State),
        (setupConnection_onData now (Msg.join playerName) s).state.opponentName
          = playerName.orElse "Opponent"
        ∧ (setupConnection_onData now (Msg.join playerName) s).state.isMyTurn = s.isMyTurn) := by
  refine ⟨by decide, ?_, ?_, ?_⟩
  · intro index
    exact makeMove_blocked 2500 index hostJoinedLate (by decide) (Or.inr (by decide))
  · intro index
    exact makeMove_blocked 2500 index guestJoinedLate (by decide) (Or.inr (by decide))
  · intro now playerName s
    exact ⟨rfl, rfl⟩

theorem redrawBoxes_length (board : List JSVal) (boxes : List Box) :
    (redrawBoxes board boxes).length = boxes.length := by
  simp [redrawBoxes]

theorem redrawBoxes_idem (board : List JSVal) (boxes : List Box) :
    redrawBoxes board (redrawBoxes board boxes) = redrawBoxes board boxes := by
  simp [redrawBoxes]

theorem redrawBoxes_getElem? (board : List JSVal) (boxes : List Box) (i : Nat)
    (h : i < boxes.length) :
    (redrawBoxes board boxes)[i]? = some
      (if (idx board i).truthy then { innerHTML := some (idx board i), disabled := true }
       else { innerHTML := none, disabled := false }) := by
  simp [redrawBoxes, List.getElem?_map, List.getElem?_range, h]

/-- C9: after an incoming `sync` message the local board is the received
one, whatever it held before, `opponentName` is the host name (or "Opponent"
when that is empty), and each of the 9 boxes is disabled exactly when its
cell is a non-empty symbol; handling the same message once more, at any
time, gives the state that handling it once at that time gives. -/
theorem onData_sync (now : Int) (b : List JSVal) (hostName : JSVal) (s : State)
    (hboxes : s.boxes.length = 9) :
    ∃ s', setupConnection_onData now (Msg.sync b hostName) s = Outcome.done s'
      ∧ s'.board = b
      ∧ s'.opponentName = hostName.orElse "Opponent"
      ∧ (∀ n, hostName = JSVal.str n → n ≠ "" → s'.opponentName = n)
      ∧ (hostName = JSVal.str "" → s'.opponentName = "Opponent")
      ∧ s'.boxes.length = 9
      ∧ (∀ i, i < 9 → ∃ box, s'.boxes[i]? = some box
          ∧ (box.disabled = true ↔ (idx b i).truthy = true)
          ∧ (∀ c, idx b i = JSVal.str c → (box.disabled = true ↔ c ≠ "")))
      ∧ (∀ later, setupConnection_onData later (Msg.sync b hostName) s'
          = setupConnection_onData later (Msg.sync b hostName) s)
      ∧ setupConnection_onData now (Msg.sync b hostName) s' = Outcome.done s' := by
  refine ⟨_, rfl, rfl, rfl, ?_, ?_, ?_, ?_, ?_, ?_⟩
  · exact (orElse_cases hostName "Opponent").1
  · intro h
    exact (orElse_cases hostName "Opponent").2 (Or.inl h)
  · simp [saveGameState, redrawBoxes_length, hboxes]
  · intro i hi
    have hlt : i < s.boxes.length := by omega
    refine ⟨_, redrawBoxes_getElem? b s.boxes i hlt, ?_, ?_⟩
    · by_cases ht : (idx b i).truthy = true <;> simp [ht]
    · intro c hc
      rw [hc]
      by_cases ht : c = "" <;> simp [JSVal.truthy, ht]
  · intro later
    simp [setupConnection_onData, saveGameState, snapshotOf, redrawBoxes_idem]
  · simp [setupConnection_onData, saveGameState, snapshotOf, redrawBoxes_idem]

/-- C9 at the host's board after its first move, received by the guest
whose connection has just opened. -/
theorem onData_sync_witness :
    (setupConnection_onData 4000 (Msg.sync hostMoved.board (JSVal.str "Ann"))
        guestConnected).state.board = hostMoved.board := by
  obtain ⟨s', h, hb, _⟩ := onData_sync 4000 hostMoved.board (JSVal.str "Ann")
    guestConnected (by decide)
  rw [h]
  exact hb

/-- C10, on the code: `backToModes` empties the board, clears the snapshot
and resets the mode, the role, the room code and the names, and it runs to
its end without a connection or a peer; but it never assigns `playerSymbol`,
and `isMyTurn` is only assigned inside `resetGame`, from the `isHost` of the
session being left.  A host that leaves keeps its symbol and is left with
`isMyTurn` true. -/
theorem backToModes_leftovers :
    (backToModes hostMoved).playerSymbol = JSVal.str symbolA
    ∧ (backToModes hostMoved).isMyTurn = true
    ∧ (initialState freshBoxes [] none).playerSymbol = JSVal.null
    ∧ (initialState freshBoxes [] none).isMyTurn = false
    ∧ (∀ s : State,
        (backToModes s).board = emptyBoard ∧ (backToModes s).turn0 = true
        ∧ (backToModes s).gameActive = true ∧ (backToModes s).gameMode = GameMode.none
        ∧ (backToModes s).conn = none ∧ (backToModes s).peer = none
        ∧ (backToModes s).roomCode = none ∧ (backToModes s).isHost = false
        ∧ (backToModes s).player1Name = "Player 1" ∧ (backToModes s).player2Name = "Player 2"
        ∧ (backToModes s).myName = "" ∧ (backToModes s).opponentName = ""
        ∧ (backToModes s).gameState = none
        ∧ (backToModes s).playerSymbol = s.playerSymbol
        ∧ (backToModes s).isMyTurn
            = if s.gameMode = GameMode.online then s.isHost else s.isMyTurn) := by
  refine ⟨by decide, by decide, rfl, rfl, ?_⟩
  intro s
  simp only [backToModes, clearGameState, resetGame, sendData]
  split_ifs <;> simp_all [updateStatus]

theorem failedReconnects_counters (codes : List String) (s : State) :
    (failedReconnects codes s).reconnectAttempts = s.reconnectAttempts
    ∧ (failedReconnects codes s).maxReconnectAttempts = s.maxReconnectAttempts := by
  induction codes generalizing s with
  | nil => exact ⟨rfl, rfl⟩
  | cons code codes ih =>
    simp only [failedReconnects, attemptReconnectAsHost_onError, fireTimer]
    obtain ⟨h1, h2⟩ := ih (attemptReconnectAsHost
      { updateStatus "❌ Room ID already in use. Creating new room..." s with
        roomCode := some code })
    exact ⟨h1.trans rfl, h2.trans rfl⟩

/-- C11, on the code: on `unavailable-id` the error handler of
`attemptReconnectAsHost` schedules a retry that draws a new room code and
registers `'ttt-' + roomCode` again, and it does so after every run of such
failures, however long: the counters `reconnectAttempts` and
`maxReconnectAttempts` are never read or written, so no number of failures
stops the retries. -/
theorem reconnect_retry_unbounded :
    (∀ (codes : List String) (s : State),
      (attemptReconnectAsHost_onError PeerErrorType.unavailableId
          (failedReconnects codes s)).2 = Timer.retryAsHost
      ∧ (failedReconnects codes s).reconnectAttempts = s.reconnectAttempts
      ∧ (failedReconnects codes s).maxReconnectAttempts = s.maxReconnectAttempts)
    ∧ (∀ (code : String) (s : State),
        (fireTimer code Timer.retryAsHost s).roomCode = some code
        ∧ (fireTimer code Timer.retryAsHost s).peer = some { id := some ("ttt-" ++ code) })
    ∧ (attemptReconnectAsHost_onError PeerErrorType.unavailableId
          (failedReconnects ["A1B2C", "D3E4F", "G5H1I", "J2K3A"]
            (attemptReconnectAsHost hostMoved))).2 = Timer.retryAsHost
    ∧ (failedReconnects ["A1B2C", "D3E4F", "G5H1I", "J2K3A"]
          (attemptReconnectAsHost hostMoved)).maxReconnectAttempts = 3
    ∧ ¬ ∃ N : Nat, ∀ (codes : List String) (s : State), N ≤ codes.length →
        (attemptReconnectAsHost_onError PeerErrorType.unavailableId
          (failedReconnects codes s)).2 ≠ Timer.retryAsHost := by
  refine ⟨?_, ?_, rfl, by decide, ?_⟩
  · intro codes s
    exact ⟨rfl, failedReconnects_counters codes s⟩
  · intro code s
    exact ⟨rfl, rfl⟩
  · rintro ⟨N, hN⟩
    exact hN (List.replicate N "AAAAA") pageLoaded (by simp) rfl

theorem makeMove_board_cases (now : Int) (index : Nat) (s : State) :
    (makeMove now index s).state.board = s.board
    ∨ ((s.gameMode = GameMode.online → idx s.board index = emptyCell)
        ∧ ∃ v, (makeMove now index s).state.board = arrSet s.board index v) := by
  unfold makeMove
  by_cases hm : s.gameMode = GameMode.online
  · simp only [hm, if_true]
    by_cases hg : (!s.isMyTurn || !s.gameActive || decide (idx s.board index ≠ emptyCell)) = true
    · left
      rw [if_pos hg]
      rfl
    · right
      have hcell : idx s.board index = emptyCell := by
        simp only [Bool.or_eq_true, not_or, decide_eq_true_eq, not_not] at hg
        exact hg.2
      refine ⟨fun _ => hcell, s.playerSymbol, ?_⟩
      rw [if_neg hg]
      cases hb : markBox s.boxes index s.playerSymbol with
      | none => simp [Outcome.state]
      | some bs =>
        simp only [Outcome.state, saveGameState]
        split_ifs <;> simp [updateStatus, checkWinner_board, sendData_frame]
  · rw [if_neg hm]
    simp only []
    cases hb : markBox s.boxes index (JSVal.str (if s.turn0 then symbolA else symbolB)) with
    | none =>
      left
      rfl
    | some bs =>
      right
      refine ⟨fun h => absurd h hm, JSVal.str (if s.turn0 then symbolA else symbolB), ?_⟩
      simp [Outcome.state, updateStatus, checkWinner_board]

theorem onData_move_board (now : Int) (index : Nat) (symbol : JSVal) (s : State) :
    (setupConnection_onData now (Msg.move index symbol) s).state.board
      = arrSet s.board index symbol := by
  simp only [setupConnection_onData]
  cases hb : markBox s.boxes index symbol with
  | none => rfl
  | some bs =>
    simp only [Outcome.state, saveGameState]
    split_ifs <;> simp [updateStatus, checkWinner_board]

/-- C12, refuted as stated: the host holds its symbol in cell 0; an incoming
`move` for index 0 replaces it by the sender's symbol, and an incoming `sync`
with an empty board empties it. -/
theorem steps_overwrite_cells :
    idx hostMoved.board 0 = JSVal.str symbolA
    ∧ idx (applyStep 4000 (Step.move 0 (JSVal.str symbolB)) hostMoved).state.board 0
        = JSVal.str symbolB
    ∧ idx (applyStep 4000 (Step.sync emptyBoard (JSVal.str "Ann")) hostMoved).state.board 0
        = emptyCell
    ∧ ¬ (∀ (now : Int) (step : Step) (s : State) (j : Nat), idx s.board j ≠ emptyCell →
          idx (applyStep now step s).state.board j = idx s.board j) := by
  refine ⟨by decide, by decide, by decide, ?_⟩
  intro h
  exact absurd (h 4000 (Step.move 0 (JSVal.str symbolB)) hostMoved 0 (by decide)) (by decide)

/-- C12, amended: a cell that holds a non-empty symbol is left as it is by
the `join` handler and by `makeMove` in online mode; offline `makeMove` and
the handler of an incoming `move` leave it as it is unless it is the cell at
their own index, which they write without looking at it; after the `sync`
handler the cell holds what the received board holds there; `resetGame`
empties all nine cells. -/
theorem steps_on_set_cell (now : Int) (s : State) (j : Nat)
    (hcell : idx s.board j ≠ emptyCell) :
    (∀ index, s.gameMode = GameMode.online ∨ index ≠ j →
        idx (applyStep now (Step.localMove index) s).state.board j = idx s.board j)
    ∧ (∀ playerName,
        idx (applyStep now (Step.join playerName) s).state.board j = idx s.board j)
    ∧ (∀ index symbol, index ≠ j →
        idx (applyStep now (Step.move index symbol) s).state.board j = idx s.board j)
    ∧ (∀ index symbol,
        idx (applyStep now (Step.move index symbol) s).state.board index = symbol)
    ∧ (∀ board hostName,
        idx (applyStep now (Step.sync board hostName) s).state.board j = idx board j)
    ∧ (j < 9 → idx (resetGame s).board j = emptyCell) := by
  refine ⟨?_, ?_, ?_, ?_, ?_, ?_⟩
  · intro index h
    simp only [applyStep]
    rcases makeMove_board_cases now index s with hb | ⟨hon, v, hb⟩
    · rw [hb]
    · rw [hb]
      apply idx_arrSet_ne
      rcases h with h | h
      · intro hj
        subst hj
        exact hcell (hon h)
      · exact Ne.symm h
  · intro playerName
    rfl
  · intro index symbol h
    simp only [applyStep, onData_move_board]
    exact idx_arrSet_ne _ _ _ _ (Ne.symm h)
  · intro index symbol
    simp only [applyStep, onData_move_board]
    exact idx_arrSet_self _ _ _
  · intro board hostName
    rfl
  · intro hj
    rw [(resetGame_frame s).1]
    have : j ∈ [0, 1, 2, 3, 4, 5, 6, 7, 8] := by
      simp only [List.mem_cons, List.mem_singleton]
      omega
    simp only [List.mem_cons, List.mem_singleton, List.not_mem_nil, or_false] at this
    rcases this with h | h | h | h | h | h | h | h | h <;> subst h <;> rfl

/-- C12 amended, at the host that holds cell 0: its own `makeMove(0)` and an
incoming move on cell 4 leave cell 0 alone. -/
theorem steps_on_set_cell_witness :
    idx (applyStep 4000 (Step.localMove 0) hostMoved).state.board 0 = idx hostMoved.board 0
    ∧ idx (applyStep 4000 (Step.move 4 (JSVal.str symbolB)) hostMoved).state.board 0
        = idx hostMoved.board 0 :=
  ⟨(steps_on_set_cell 4000 hostMoved 0 (by decide)).1 0 (Or.inl (by decide)),
   (steps_on_set_cell 4000 hostMoved 0 (by decide)).2.2.1 4 (JSVal.str symbolB) (by decide)⟩

theorem resetGame_online (s : State) (hm : s.gameMode = GameMode.online) :
    (resetGame s).gameMode = GameMode.online ∧ (resetGame s).isHost = s.isHost
      ∧ (resetGame s).isMyTurn = s.isHost ∧ (resetGame s).gameActive = true := by
  unfold resetGame
  simp only []
  rw [if_pos hm]
  simp [updateStatus, sendData_frame, hm]

/-- C13, on the code: the `close` handler sets `gameActive` to false and
from then on `makeMove` changes nothing, but `resetGame`, run by the reset
and the new-game button, sets `gameActive` back to true and `isMyTurn` to
`isHost` without looking at the connection.  On the host whose guest has
gone, a press of the reset button followed by a click on cell 0 writes the
host's symbol, hands the turn over and saves the snapshot, while nothing is
sent. -/
theorem reset_after_close_unfreezes :
    (hostDisconnected.gameMode = GameMode.online
    ∧ hostDisconnected.conn = some { isOpen := false }
    ∧ hostDisconnected.gameActive = false
    ∧ makeMove 5000 4 hostDisconnected = Outcome.done hostDisconnected
    ∧ (userActions 5000 [UserAction.resetButton] hostDisconnected).gameActive = true
    ∧ (userActions 5000 [UserAction.resetButton] hostDisconnected).isMyTurn = true
    ∧ idx (userActions 5000 [UserAction.resetButton] hostDisconnected).board 0 = emptyCell
    ∧ idx (userActions 5000 [UserAction.resetButton, UserAction.click 0]
        hostDisconnected).board 0 = JSVal.str symbolA
    ∧ (userActions 5000 [UserAction.resetButton, UserAction.click 0]
        hostDisconnected).isMyTurn = false
    ∧ (userActions 5000 [UserAction.resetButton, UserAction.click 0] hostDisconnected).board
        ≠ (userActions 5000 [UserAction.resetButton] hostDisconnected).board
    ∧ Option.map Snapshot.board (userActions 5000 [UserAction.resetButton, UserAction.click 0]
        hostDisconnected).gameState
        = some (userActions 5000 [UserAction.resetButton, UserAction.click 0]
            hostDisconnected).board
    ∧ (userActions 5000 [UserAction.resetButton, UserAction.click 0] hostDisconnected).sent
        = hostDisconnected.sent)
    ∧ (∀ (now : Int) (index : Nat) (s : State),
        (setupConnection_onClose { s with gameMode := GameMode.online }).gameActive = false
        ∧ makeMove now index (setupConnection_onClose { s with gameMode := GameMode.online })
            = Outcome.done (setupConnection_onClose { s with gameMode := GameMode.online })
        ∧ (resetGame (setupConnection_onClose
            { s with gameMode := GameMode.online })).gameActive = true
        ∧ (resetGame (setupConnection_onClose
            { s with gameMode := GameMode.online })).isMyTurn = s.isHost) := by
  refine ⟨by decide, ?_⟩
  intro now index s
  refine ⟨rfl, makeMove_blocked now index _ rfl (Or.inl rfl), ?_, ?_⟩
  · exact (resetGame_online _ rfl).2.2.2
  · exact (resetGame_online _ rfl).2.2.1

theorem checkWinner_gameActive (s : State) :
    (checkWinner s).gameActive
      = (if verdict s.board = Verdict.ongoing then s.gameActive else false) := by
  unfold checkWinner
  cases verdict s.board <;> simp

theorem makeMove_accepted (now : Int) (index : Nat) (s : State)
    (hmode : s.gameMode = GameMode.online) (hconn : s.conn = some { isOpen := true })
    (hactive : s.gameActive = true) (hturn : s.isMyTurn = true)
    (hboxes : index < s.boxes.length) (hcell : idx s.board index = emptyCell) :
    ∃ s', makeMove now index s = Outcome.done s'
      ∧ s'.board = arrSet s.board index s.playerSymbol
      ∧ s'.sent = s.sent ++ [Msg.move index s.playerSymbol]
      ∧ s'.isMyTurn = false
      ∧ s'.gameActive
          = (if verdict (arrSet s.board index s.playerSymbol) = Verdict.ongoing then true
             else false) := by
  have hg : ¬ (!s.isMyTurn || !s.gameActive || decide (idx s.board index ≠ emptyCell)) = true := by
    simp [hactive, hturn, hcell]
  unfold makeMove
  rw [if_pos hmode, if_neg hg]
  simp only [markBox, hboxes, if_true, sendData, hconn]
  refine ⟨_, rfl, ?_, ?_, ?_, ?_⟩
  · simp only [saveGameState]
    split_ifs <;> simp [updateStatus, checkWinner_board]
  · simp only [saveGameState, checkWinner]
    cases verdict (arrSet s.board index s.playerSymbol) <;> simp [updateStatus, hactive]
  · simp only [saveGameState]
    split_ifs <;> simp [updateStatus, checkWinner_isMyTurn]
  · simp only [saveGameState]
    split_ifs <;> simp_all [updateStatus, checkWinner_gameActive]

theorem onData_move_gameActive (now : Int) (index : Nat) (symbol : JSVal) (s : State)
    (hboxes : index < s.boxes.length) :
    (setupConnection_onData now (Msg.move index symbol) s).state.gameActive
      = (if verdict (arrSet s.board index symbol) = Verdict.ongoing then s.gameActive
         else false) := by
  simp only [setupConnection_onData, markBox, hboxes, if_true, Outcome.state, saveGameState]
  split_ifs <;> simp_all [updateStatus, checkWinner_gameActive]

/-- C14: two connected peers hold the same board and both games are active;
the one whose turn it is calls `makeMove` on an empty cell and the `move`
message it sends is delivered to the other.  Then the boards are equal
again, `checkWinner` took the same branch on both, for the same symbol,
`gameActive` is the same on both (false exactly when a line or a draw was
found), and `isMyTurn` is false on the sender and true on the receiver. -/
theorem move_keeps_peers_in_step (now later : Int) (index : Nat) (a b : State)
    (hmode : a.gameMode = GameMode.online) (hconn : a.conn = some { isOpen := true })
    (hboard : a.board = b.board)
    (hactiveA : a.gameActive = true) (hactiveB : b.gameActive = true)
    (hturnA : a.isMyTurn = true) (_hturnB : b.isMyTurn = false)
    (hboxesA : a.boxes.length = 9) (hboxesB : b.boxes.length = 9)
    (hindex : index < 9) (hcell : idx a.board index = emptyCell) :
    ∃ a' b', makeMove now index a = Outcome.done a'
      ∧ newlySent a a' = [Msg.move index a.playerSymbol]
      ∧ setupConnection_onData later (Msg.move index a.playerSymbol) b = Outcome.done b'
      ∧ a'.board = b'.board
      ∧ idx a'.board index = a.playerSymbol
      ∧ verdict a'.board = verdict b'.board
      ∧ a'.gameActive = b'.gameActive
      ∧ (a'.gameActive = false ↔ verdict a'.board ≠ Verdict.ongoing)
      ∧ a'.isMyTurn = false ∧ b'.isMyTurn = true := by
  obtain ⟨a', ha, hab, has, hat, hag⟩ :=
    makeMove_accepted now index a hmode hconn hactiveA hturnA (by omega) hcell
  obtain ⟨b', hb, _, _, hbt⟩ := onData_move later index a.playerSymbol b hboxesB hindex
  have hbb : b'.board = arrSet b.board index a.playerSymbol := by
    have := onData_move_board later index a.playerSymbol b
    rwa [hb] at this
  have hbg : b'.gameActive
      = (if verdict (arrSet b.board index a.playerSymbol) = Verdict.ongoing then b.gameActive
         else false) := by
    have := onData_move_gameActive later index a.playerSymbol b (by omega)
    rwa [hb] at this
  have heq : a'.board = b'.board := by rw [hab, hbb, hboard]
  refine ⟨a', b', ha, ?_, hb, heq, ?_, by rw [heq], ?_, ?_, hat, hbt⟩
  · simp [newlySent, has]
  · rw [hab]
    exact idx_arrSet_self _ _ _
  · rw [hag, hbg, hboard, hactiveB]
  · rw [hag, hab]
    by_cases hv : verdict (arrSet a.board index a.playerSymbol) = Verdict.ongoing <;> simp [hv]

/-- C14 at the host's first move on cell 0, delivered to the guest. -/
theorem move_keeps_peers_in_step_witness :
    ∃ a' b', makeMove 3000 0 hostJoined = Outcome.done a'
      ∧ newlySent hostJoined a' = [Msg.move 0 hostJoined.playerSymbol]
      ∧ setupConnection_onData 3001 (Msg.move 0 hostJoined.playerSymbol) guestJoined
          = Outcome.done b'
      ∧ a'.board = b'.board
      ∧ idx a'.board 0 = hostJoined.playerSymbol
      ∧ verdict a'.board = verdict b'.board
      ∧ a'.gameActive = b'.gameActive
      ∧ (a'.gameActive = false ↔ verdict a'.board ≠ Verdict.ongoing)
      ∧ a'.isMyTurn = false ∧ b'.isMyTurn = true :=
  move_keeps_peers_in_step 3000 3001 0 hostJoined guestJoined (by decide) (by decide)
    (by decide) (by decide) (by decide) (by decide) (by decide) (by decide) (by decide)
    (by decide) (by decide)

theorem checkWinner_gameMode (s : State) : (checkWinner s).gameMode = s.gameMode := by
  unfold checkWinner
  cases verdict s.board <;> rfl

theorem firstLine_eq_some (board : List JSVal) (ps : List (Nat × Nat × Nat)) (v : JSVal)
    (h : firstLine board ps = some v) :
    ∃ p ∈ ps, lineFull board p = true ∧ idx board p.1 = v := by
  induction ps with
  | nil => simp [firstLine] at h
  | cons p ps ih =>
    by_cases hl : lineFull board p = true
    · simp only [firstLine, hl, if_true, Option.some.injEq] at h
      exact ⟨p, List.mem_cons_self p ps, hl, h⟩
    · simp only [firstLine, hl] at h
      obtain ⟨q, hq, hql, hqv⟩ := ih h
      exact ⟨q, List.mem_cons_of_mem p hq, hql, hqv⟩

theorem noLine_of_ongoing (board : List JSVal) (h : verdict board = Verdict.ongoing) :
    ∀ p ∈ winPatterns, lineFull board p = false := by
  intro p hp
  have hnone := ((verdict_ongoing_iff board).1 h).1
  by_contra hl
  have hfull : lineFull board p = true := by simpa using hl
  obtain ⟨v, hv⟩ := (firstLine_isSome_iff board winPatterns).2 ⟨p, hp, hfull⟩
  rw [hnone] at hv
  exact Option.noConfusion hv

theorem lineFull_after_write (board : List JSVal) (i : Nat) (x : JSVal)
    (hno : ∀ p ∈ winPatterns, lineFull board p = false)
    (p : Nat × Nat × Nat) (hp : p ∈ winPatterns)
    (hl : lineFull (arrSet board i x) p = true) :
    idx (arrSet board i x) p.1 = x := by
  by_contra hne
  obtain ⟨ht, h12, h23⟩ := (lineFull_iff _ p).1 hl
  have h1 : p.1 ≠ i := by
    intro h
    rw [h, idx_arrSet_self] at hne
    exact hne rfl
  have h2 : p.2.1 ≠ i := by
    intro h
    rw [h12, h, idx_arrSet_self] at hne
    exact hne rfl
  have h3 : p.2.2 ≠ i := by
    intro h
    rw [h12, h23, h, idx_arrSet_self] at hne
    exact hne rfl
  rw [idx_arrSet_ne _ _ _ _ h1] at ht h12
  rw [idx_arrSet_ne _ _ _ _ h2] at h12 h23
  rw [idx_arrSet_ne _ _ _ _ h3] at h23
  have := (lineFull_iff board p).2 ⟨ht, h12, h23⟩
  rw [hno p hp] at this
  exact Bool.noConfusion this

theorem emptyBoard_noLine : ∀ p ∈ winPatterns, lineFull emptyBoard p = false := by
  decide

theorem offlineInv_of_noLine (s : State) (hm : s.gameMode = GameMode.offline)
    (hno : ∀ p ∈ winPatterns, lineFull s.board p = false) : offlineInv s := by
  refine ⟨hm, fun _ => hno, ?_⟩
  intro p hp q _ hl _
  rw [hno p hp] at hl
  exact Bool.noConfusion hl

theorem offlineInv_resetGame (s : State) (h : s.gameMode = GameMode.offline) :
    offlineInv (resetGame s) := by
  obtain ⟨hb, _, _, _, hm⟩ := resetGame_frame s
  apply offlineInv_of_noLine _ (hm.trans h)
  rw [hb]
  exact emptyBoard_noLine

theorem offlineInv_makeMove (now : Int) (index : Nat) (s : State) (h : offlineInv s)
    (hactive : s.gameActive = true) : offlineInv (makeMove now index s).state := by
  obtain ⟨hm, hno, _⟩ := h
  have hoff : ¬ s.gameMode = GameMode.online := by
    rw [hm]
    decide
  unfold makeMove
  rw [if_neg hoff]
  simp only []
  cases hb : markBox s.boxes index (JSVal.str (if s.turn0 then symbolA else symbolB)) with
  | none =>
    show offlineInv s
    exact offlineInv_of_noLine s hm (hno hactive)
  | some bs =>
    simp only [Outcome.state]
    refine ⟨?_, ?_, ?_⟩
    · rw [checkWinner_gameMode]
      exact hm
    · intro hga
      rw [checkWinner_gameActive] at hga
      rw [checkWinner_board]
      by_cases hv : verdict (updateStatus
          (if (!s.turn0) = true then s.player1Name ++ " (🥰) turn"
           else s.player2Name ++ " (😊) turn")
          { s with boxes := bs,
                   board := arrSet s.board index
                     (JSVal.str (if s.turn0 then symbolA else symbolB)),
                   turn0 := !s.turn0 }).board = Verdict.ongoing
      · exact noLine_of_ongoing _ hv
      · rw [if_neg hv] at hga
        exact Bool.noConfusion hga
    · rw [checkWinner_board]
      intro p hp q hq hlp hlq
      have h1 := lineFull_after_write s.board index _ (hno hactive) p hp hlp
      have h2 := lineFull_after_write s.board index _ (hno hactive) q hq hlq
      exact h1.trans h2.symm

theorem offlineInv_userAction (now : Int) (a : UserAction) (s : State) (h : offlineInv s) :
    offlineInv (userAction now a s) := by
  cases a with
  | click index =>
    simp only [userAction, boxClick]
    cases s.boxes[index]? with
    | none => exact h
    | some box =>
      simp only []
      by_cases hg : (decide (box.innerHTML = none) && s.gameActive) = true
      · rw [if_pos hg]
        simp only [Bool.and_eq_true] at hg
        exact offlineInv_makeMove now index s h hg.2
      · rw [if_neg hg]
        exact h
  | resetButton => exact offlineInv_resetGame s h.1
  | newGameButton => exact offlineInv_resetGame { s with msgHidden := true } h.1

theorem offlineInv_userActions (now : Int) (acts : List UserAction) (s : State)
    (h : offlineInv s) : offlineInv (userActions now acts s) := by
  induction acts generalizing s with
  | nil => exact h
  | cons a rest ih => exact ih _ (offlineInv_userAction now a s h)

theorem lineOf_full (board : List JSVal) (x : JSVal) (hx : x.truthy = true)
    (h : lineOf board x) : ∃ p ∈ winPatterns, lineFull board p = true ∧ idx board p.1 = x := by
  obtain ⟨p, hp, h1, h2, h3⟩ := h
  refine ⟨p, hp, (lineFull_iff board p).2 ⟨?_, ?_, ?_⟩, h1⟩
  · rw [h1]
    exact hx
  · rw [h1, h2]
  · rw [h2, h3]

theorem firstLine_perm (board : List JSVal) (h : oneSided board)
    (ps : List (Nat × Nat × Nat)) (hperm : ps.Perm winPatterns) :
    firstLine board ps = firstLine board winPatterns := by
  cases hw : firstLine board winPatterns with
  | none =>
    cases hps : firstLine board ps with
    | none => rfl
    | some v =>
      obtain ⟨p, hp, hl, _⟩ := firstLine_eq_some board ps v hps
      obtain ⟨w, hw'⟩ := (firstLine_isSome_iff board winPatterns).2 ⟨p, hperm.mem_iff.1 hp, hl⟩
      rw [hw] at hw'
      exact Option.noConfusion hw'
  | some v =>
    obtain ⟨p, hp, hl, hv⟩ := firstLine_eq_some board winPatterns v hw
    obtain ⟨w, hw'⟩ := (firstLine_isSome_iff board ps).2 ⟨p, hperm.mem_iff.2 hp, hl⟩
    obtain ⟨q, hq, hlq, hqv⟩ := firstLine_eq_some board ps w hw'
    rw [hw', ← hqv, ← hv, h q (hperm.mem_iff.1 hq) p hp hlq hl]

/-- C15: in every state that an offline game reaches from the empty board
by cell clicks (and presses of the reset and the new-game button), at most
one of the two symbols has a completed line, and `checkWinner` finds the
same winning symbol whatever the order of the entries of `winPatterns`. -/
theorem offline_one_winner (now : Int) (acts : List UserAction) (s : State)
    (hmode : s.gameMode = GameMode.offline) (hboard : s.board = emptyBoard) :
    ¬ (lineOf (userActions now acts s).board (JSVal.str symbolA)
        ∧ lineOf (userActions now acts s).board (JSVal.str symbolB))
    ∧ (∀ x y, x.truthy = true → y.truthy = true →
        lineOf (userActions now acts s).board x → lineOf (userActions now acts s).board y →
        x = y)
    ∧ (∀ ps : List (Nat × Nat × Nat), ps.Perm winPatterns →
        firstLine (userActions now acts s).board ps
          = firstLine (userActions now acts s).board winPatterns) := by
  have hstart : offlineInv s := by
    apply offlineInv_of_noLine s hmode
    rw [hboard]
    exact emptyBoard_noLine
  obtain ⟨_, _, hone⟩ := offlineInv_userActions now acts s hstart
  have hxy : ∀ x y, x.truthy = true → y.truthy = true →
      lineOf (userActions now acts s).board x → lineOf (userActions now acts s).board y →
      x = y := by
    intro x y hx hy hlx hly
    obtain ⟨p, hp, hpl, hpx⟩ := lineOf_full _ x hx hlx
    obtain ⟨q, hq, hql, hqy⟩ := lineOf_full _ y hy hly
    rw [← hpx, ← hqy]
    exact hone p hp q hq hpl hql
  refine ⟨?_, hxy, ?_⟩
  · rintro ⟨ha, hb⟩
    exact absurd (hxy _ _ (by decide) (by decide) ha hb) (by decide)
  · intro ps hperm
    exact firstLine_perm _ hone ps hperm

/-- C15 after the clicks 0, 3, 1, 4, 2 of an offline game, which give
player 1 the top row. -/
theorem offline_one_winner_witness :
    ¬ (lineOf (userActions 0 [UserAction.click 0, UserAction.click 3, UserAction.click 1,
          UserAction.click 4, UserAction.click 2]
          (resetGame { pageLoaded with gameMode := GameMode.offline })).board
          (JSVal.str symbolA)
        ∧ lineOf (userActions 0 [UserAction.click 0, UserAction.click 3, UserAction.click 1,
          UserAction.click 4, UserAction.click 2]
          (resetGame { pageLoaded with gameMode := GameMode.offline })).board
          (JSVal.str symbolB)) :=
  (offline_one_winner 0 [UserAction.click 0, UserAction.click 3, UserAction.click 1,
      UserAction.click 4, UserAction.click 2]
    (resetGame { pageLoaded with gameMode := GameMode.offline }) (by decide) (by decide)).1

theorem resetGame_sends (s : State) (hm : s.gameMode = GameMode.online)
    (hc : s.conn = some { isOpen := true }) :
    (resetGame s).gameMode = GameMode.online ∧ (resetGame s).conn = some { isOpen := true }
      ∧ (resetGame s).sent = s.sent ++ [Msg.reset] := by
  unfold resetGame
  simp only []
  rw [if_pos hm]
  simp [updateStatus, sendData, hc, hm]

theorem onData_reset_sends (now : Int) (s : State) (hm : s.gameMode = GameMode.online)
    (hc : s.conn = some { isOpen := true }) :
    (setupConnection_onData now Msg.reset s).state.gameMode = GameMode.online
      ∧ (setupConnection_onData now Msg.reset s).state.conn = some { isOpen := true }
      ∧ (setupConnection_onData now Msg.reset s).state.sent = s.sent ++ [Msg.reset] := by
  obtain ⟨h1, h2, h3⟩ := resetGame_sends s hm hc
  simp only [setupConnection_onData, Outcome.state, saveGameState, updateStatus]
  exact ⟨h1, h2, h3⟩

theorem newlySent_append (before after : State) (ms : List Msg)
    (h : after.sent = before.sent ++ ms) : newlySent before after = ms := by
  simp [newlySent, h]

theorem resetInFlight_deliver (now : Int) (l : Link) (k : Nat) (h : resetInFlight l k) :
    ∃ l', l.deliver now = some l' ∧ resetInFlight l' (k + 1) := by
  obtain ⟨hhm, hhc, hgm, hgc, hw, hk⟩ := h
  rcases hw with ⟨h1, h2⟩ | ⟨h1, h2⟩
  · obtain ⟨g1, g2, g3⟩ := onData_reset_sends now l.guest hgm hgc
    have hd : l.deliver now = some
        { l with guest := (setupConnection_onData now Msg.reset l.guest).state
                 toGuest := []
                 toHost := l.toHost
                   ++ newlySent l.guest (setupConnection_onData now Msg.reset l.guest).state } := by
      simp only [Link.deliver, h1]
    refine ⟨_, hd, hhm, hhc, g1, g2, Or.inr ⟨rfl, ?_⟩, ?_⟩
    · simp only [h2, List.nil_append]
      exact newlySent_append _ _ _ g3
    · simp only [g3, List.length_append, List.length_singleton]
      omega
  · obtain ⟨g1, g2, g3⟩ := onData_reset_sends now l.host hhm hhc
    have hd : l.deliver now = some
        { l with host := (setupConnection_onData now Msg.reset l.host).state
                 toHost := []
                 toGuest := l.toGuest
                   ++ newlySent l.host (setupConnection_onData now Msg.reset l.host).state } := by
      simp only [Link.deliver, h1, h2]
    refine ⟨_, hd, g1, g2, hgm, hgc, Or.inl ⟨?_, rfl⟩, ?_⟩
    · simp only [h1, List.nil_append]
      exact newlySent_append _ _ _ g3
    · simp only [g3, List.length_append, List.length_singleton]
      omega

theorem resetInFlight_run (now : Int) (n : Nat) (l : Link) (k : Nat) (h : resetInFlight l k) :
    resetInFlight (Link.run now n l) (k + n) := by
  induction n generalizing l k with
  | zero => exact h
  | succ n ih =>
    obtain ⟨l', hd, hl'⟩ := resetInFlight_deliver now l k h
    simp only [Link.run, hd]
    have := ih l' (k + 1) hl'
    rwa [Nat.add_assoc, Nat.add_comm 1 n] at this

/-- C16, on the code: the handler of an incoming `reset` message runs
`resetGame`, which in online mode sends a `reset` itself.  Between two
connected peers a local `resetGame()` on the host therefore starts an
exchange that never ends: after any number of deliveries one `reset` is in
flight again, and the count of messages sent has grown by one with each
delivery. -/
theorem reset_echoes_forever (now : Int) (l : Link)
    (hhost : l.host.gameMode = GameMode.online) (hhostConn : l.host.conn = some { isOpen := true })
    (hguest : l.guest.gameMode = GameMode.online)
    (hguestConn : l.guest.conn = some { isOpen := true })
    (hquiet : l.toGuest = [] ∧ l.toHost = []) :
    newlySent l.guest (setupConnection_onData now Msg.reset l.guest).state = [Msg.reset]
    ∧ l.hostResets.toGuest = [Msg.reset]
    ∧ ∀ n : Nat,
        (Link.run now n l.hostResets).toGuest ++ (Link.run now n l.hostResets).toHost
          = [Msg.reset]
        ∧ (Link.run now n l.hostResets).deliver now ≠ none
        ∧ (Link.run now n l.hostResets).host.sent.length
            + (Link.run now n l.hostResets).guest.sent.length
          = l.host.sent.length + l.guest.sent.length + 1 + n := by
  obtain ⟨r1, r2, r3⟩ := resetGame_sends l.host hhost hhostConn
  have hsent : l.hostResets.toGuest = [Msg.reset] := by
    simp only [Link.hostResets, hquiet.1, List.nil_append]
    exact newlySent_append _ _ _ r3
  have hstart : resetInFlight l.hostResets (l.host.sent.length + l.guest.sent.length + 1) := by
    refine ⟨r1, r2, hguest, hguestConn, Or.inl ⟨hsent, hquiet.2⟩, ?_⟩
    show (resetGame l.host).sent.length + l.guest.sent.length = _
    rw [r3, List.length_append, List.length_singleton]
    omega
  refine ⟨newlySent_append _ _ _ (onData_reset_sends now l.guest hguest hguestConn).2.2,
    hsent, ?_⟩
  intro n
  have hn := resetInFlight_run now n _ _ hstart
  obtain ⟨l', hd, _⟩ := resetInFlight_deliver now _ _ hn
  obtain ⟨_, _, _, _, hw, hk⟩ := hn
  refine ⟨?_, ?_, hk⟩
  · rcases hw with ⟨h1, h2⟩ | ⟨h1, h2⟩ <;> simp [h1, h2]
  · rw [hd]
    exact Option.noConfusion

/-- C16 on the code, for the host and the guest after the `join`: ten
deliveries after the host's `resetGame()` a `reset` is still in flight. -/
theorem reset_echoes_forever_witness :
    (Link.run 0 10 linkJoined.hostResets).toGuest ++ (Link.run 0 10 linkJoined.hostResets).toHost
      = [Msg.reset]
    ∧ (Link.run 0 10 linkJoined.hostResets).deliver 0 ≠ none :=
  ⟨((reset_echoes_forever 0 linkJoined (by decide) (by decide) (by decide) (by decide)
      (by decide)).2.2 10).1,
   ((reset_echoes_forever 0 linkJoined (by decide) (by decide) (by decide) (by decide)
      (by decide)).2.2 10).2.1⟩

end TTT
